import Mathlib

/-!
# Verification of the Late-Marking Relay (src/index.js)

Shallow embedding of the single-file Express service that marks a salon
client's upcoming appointment as "running late" in the upstream Meevo API.
The source contains two variants of the service: the current version 3.0.0
(which performs a fresh running-late GET before the PUT) and an earlier
variant (which pages the full client list and reuses the appointment-listing
record as the details for the PUT).  Both are embedded below: `markLate`
for the v3.0.0 handler, `markLate2` for the earlier variant.

Upstream I/O is modelled by an environment record holding the response
(or thrown error) of each upstream endpoint; the handler is a pure
function from request, environment, current time and token state to a
response, the list of upstream calls issued (in order), and the new token
state.  JS truthiness of the optional request fields is modelled
explicitly; timestamps are integers (epoch milliseconds).
-/

namespace MarkLate

/-- `CONFIG.TENANT_ID`. -/
def TENANT_ID : String := "200507"

/-- `CONFIG.LOCATION_ID` (the Phoenix Encanto default location). -/
def LOCATION_ID : String := "201664"

/-- JS truthiness of an optional string field: absent (`undefined`/`null`)
and the empty string are falsy. -/
def truthyS : Option String → Bool
  | none => false
  | some s => decide (s ≠ "")

/-- JS truthiness of an optional number: absent and `0` are falsy. -/
def truthyI : Option Int → Bool
  | none => false
  | some n => decide (n ≠ 0)

/-- `client_phone.replace(/\D/g, '').slice(-10)`: keep only the digit
characters, then take the last ten of them (all of them when fewer). -/
def normalizePhone (s : String) : String :=
  String.mk ((s.data.filter Char.isDigit).drop
    ((s.data.filter Char.isDigit).length - 10))

/-- `client_email.toLowerCase()`, modelled per character. -/
def normalizeEmail (s : String) : String :=
  String.mk (s.data.map Char.toLower)

/-- The `error.response?.data?.error?.message` field of a thrown upstream
error, when present (`none` models a transport error with no such field). -/
abbrev ErrVal := Option String

/-- Body of a successful token-endpoint response:
`{access_token, expires_in}` (lifetime in seconds). -/
structure TokenResp where
  access_token : String
  expires_in : Int
  deriving DecidableEq

/-- The process-wide token slot: `let token = null; let tokenExpiry = null`. -/
structure TokenState where
  token : Option String
  tokenExpiry : Option Int
  deriving DecidableEq

/-- The guard `token && tokenExpiry && Date.now() < tokenExpiry - 300000`. -/
def tokenFresh (st : TokenState) (now : Int) : Bool :=
  truthyS st.token && truthyI st.tokenExpiry &&
    decide (now < st.tokenExpiry.getD 0 - 300000)

/-- `getToken` (src/index.js lines 41-53): return the cached token when the
guard holds, otherwise refresh from the token endpoint (whose response, or
thrown error, is `resp`), replacing the slot wholesale with the new token
and the expiry `now + expires_in * 1000`. -/
def getToken (st : TokenState) (now : Int) (resp : Except ErrVal TokenResp) :
    Except ErrVal (String × TokenState) :=
  if tokenFresh st now then .ok (st.token.getD "", st)
  else
    match resp with
    | .error e => .error e
    | .ok r => .ok (r.access_token,
        { token := some r.access_token,
          tokenExpiry := some (now + r.expires_in * 1000) })

/-- The token slot after one `getToken` whose refresh (if any) succeeded. -/
def refreshedState (st : TokenState) (now : Int) (r : TokenResp) : TokenState :=
  if tokenFresh st now then st
  else { token := some r.access_token,
         tokenExpiry := some (now + r.expires_in * 1000) }

/-- One record of the `/clients/lookup` response collection
(`firstName`/`lastName` are only logged). -/
structure ClientRec where
  clientId : String
  firstName : String
  lastName : String
  deriving DecidableEq

/-- One record of the `/book/client/{id}/services` listing.  Besides the
fields the resolver reads, it may or may not carry the detail fields that
the earlier variant reuses for its update payload (absent fields are JS
`undefined`, modelled as `none`). -/
structure Appt where
  appointmentServiceId : String
  startTime : Int
  isCancelled : Bool
  serviceId : Option String
  clientId : Option String
  employeeId : Option String
  concurrencyCheckDigits : Option Int
  deriving DecidableEq

/-- Body of the running-late GET: `detailsResult.data`. -/
structure Details where
  serviceId : String
  clientId : String
  employeeId : String
  concurrencyCheckDigits : Int
  startTime : Int
  deriving DecidableEq

/-- The PUT payload of the running-late write. -/
structure UpdateBody where
  ServiceId : Option String
  ClientId : Option String
  EmployeeId : Option String
  ConcurrencyCheckDigits : Option Int
  StartTime : Option Int
  IsRunningLate : Bool
  deriving DecidableEq

/-- The filter body of the `/clients/lookup` POST: `PhoneNumbers`,
`EmailIds`, or an empty body when neither normalized value is truthy. -/
inductive LookupBody where
  | phone (p : String)
  | email (e : String)
  | emptyBody
  deriving DecidableEq

/-- One upstream call, with the payload it carries.  `clientsList` is the
earlier variant's unfiltered `GET /clients`. -/
inductive Call where
  | tokenRefresh
  | clientLookup (tenant loc : String) (body : LookupBody)
  | clientsList (tenant loc : String)
  | clientAppointments (clientId tenant loc : String)
  | runningLateRead (tenant loc aptId : String)
  | runningLateWrite (tenant loc aptId : String) (body : UpdateBody)
  deriving DecidableEq

/-- Late-Marking-Executor calls (the two `runninglate` endpoints). -/
def execCall : Call → Bool
  | .runningLateRead _ _ _ => true
  | .runningLateWrite _ _ _ _ => true
  | _ => false

/-- Identity-Resolver calls (client lookup / listing / appointments). -/
def resolverCall : Call → Bool
  | .clientLookup _ _ _ => true
  | .clientsList _ _ => true
  | .clientAppointments _ _ _ => true
  | _ => false

/-- Running-late GET calls only. -/
def isReadCall : Call → Bool
  | .runningLateRead _ _ _ => true
  | _ => false

/-- The JSON body the handler sends back with `res.json` (always HTTP 200):
either `{success:true, marked_late:true, appointment_service_id,
appointment_time, message}` (the two constant fields `marked_late` and
`message` are omitted from the model) or `{success:false, error}`. -/
inductive Resp where
  | ok (appointment_service_id : String) (appointment_time : Int)
  | fail (error : String)
  deriving DecidableEq

/-- The upstream environment of one request of the v3.0.0 variant: what
each endpoint would answer (`.error e` models a thrown axios error whose
`response?.data?.error?.message` is `e`; the inner `Option` models the
`?.data` access on the response body). -/
structure Env where
  tokenResp : Except ErrVal TokenResp
  lookupResp : Except ErrVal (Option (List ClientRec))
  apptsResp : Except ErrVal (Option (List Appt))
  detailsResp : Except ErrVal (Option Details)
  writeResp : Except ErrVal Unit

/-- `error.response?.data?.error?.message || 'Failed to mark appointment as
running late'` — the catch-all error shaping of the handler. -/
def errMsg (e : ErrVal) : String :=
  e.getD "Failed to mark appointment as running late"

/-- The token calls issued by one `callMeevoAPI` via `getToken`: none when
the cached token is still fresh, one refresh otherwise. -/
def tokCalls (st : TokenState) (now : Int) : List Call :=
  if tokenFresh st now then [] else [.tokenRefresh]

/-- The sort relation of
`.sort((a, b) => new Date(a.startTime) - new Date(b.startTime))`. -/
def apptLE (a b : Appt) : Prop := a.startTime ≤ b.startTime

instance : DecidableRel apptLE := fun a b => Int.decLe a.startTime b.startTime

instance : IsTotal Appt apptLE := ⟨fun a b => Int.le_total a.startTime b.startTime⟩

instance : IsTrans Appt apptLE := ⟨fun _ _ _ h1 h2 => le_trans h1 h2⟩

/-- The filter `a => !a.isCancelled && new Date(a.startTime) >= now`. -/
def qualifies (now : Int) (a : Appt) : Bool :=
  !a.isCancelled && decide (now ≤ a.startTime)

/-- `aptsResult.data.filter(…).sort(…)[0]`.  JS `Array.prototype.sort` is
required to be stable, and a stable sort by a total preorder has a unique
output, so it is modelled by insertion sort; `[0]` of an empty array is
`undefined`, modelled by `Option`. -/
def selectUpcoming (now : Int) (l : List Appt) : Option Appt :=
  ((l.filter (qualifies now)).insertionSort apptLE).head?

/-- The `/clients/lookup` filter body: `PhoneNumbers` when the normalized
phone is truthy, else `EmailIds` when the normalized email is truthy, else
an empty body. -/
def lookupBodyOf (np ne : Option String) : LookupBody :=
  if truthyS np then .phone (np.getD "")
  else if truthyS ne then .email (ne.getD "")
  else .emptyBody

/-- Inbound body of `POST /mark-late`; every field is an optional JSON
field. -/
structure Req where
  appointment_service_id : Option String
  client_phone : Option String
  client_email : Option String
  location_id : Option String
  estimated_minutes : Option Int
  deriving DecidableEq

/-- `const locationId = location_id || CONFIG.LOCATION_ID`. -/
def locationOf (req : Req) : String :=
  if truthyS req.location_id then req.location_id.getD "" else LOCATION_ID

/-- The PUT payload built from freshly read details (v3.0.0 path). -/
def updateBodyOf (d : Details) : UpdateBody :=
  { ServiceId := some d.serviceId
    ClientId := some d.clientId
    EmployeeId := some d.employeeId
    ConcurrencyCheckDigits := some d.concurrencyCheckDigits
    StartTime := some d.startTime
    IsRunningLate := true }

/-- The PUT payload the earlier variant builds from the appointment-listing
record it kept from resolution. -/
def updateBodyOfAppt (a : Appt) : UpdateBody :=
  { ServiceId := a.serviceId
    ClientId := a.clientId
    EmployeeId := a.employeeId
    ConcurrencyCheckDigits := a.concurrencyCheckDigits
    StartTime := some a.startTime
    IsRunningLate := true }

/-- Late-Marking Executor of v3.0.0 (src/index.js lines 155-196): a fresh
running-late GET for the concurrency digits, then the PUT.  `calls` are
the upstream calls already issued by the request. -/
def execLate (aptId locationId : String) (env : Env) (now : Int)
    (ts : TokenState) (calls : List Call) : Resp × List Call × TokenState :=
  match getToken ts now env.tokenResp with
  | .error e => (.fail (errMsg e), calls ++ tokCalls ts now, ts)
  | .ok (_, ts3) =>
    let c3 := calls ++ tokCalls ts now ++
      [Call.runningLateRead TENANT_ID locationId aptId]
    match env.detailsResp with
    | .error e => (.fail (errMsg e), c3, ts3)
    | .ok none => (.fail "Could not get appointment details", c3, ts3)
    | .ok (some details) =>
      match getToken ts3 now env.tokenResp with
      | .error e => (.fail (errMsg e), c3 ++ tokCalls ts3 now, ts3)
      | .ok (_, ts4) =>
        let c4 := c3 ++ tokCalls ts3 now ++
          [Call.runningLateWrite TENANT_ID locationId aptId (updateBodyOf details)]
        match env.writeResp with
        | .error e => (.fail (errMsg e), c4, ts4)
        | .ok _ => (.ok aptId details.startTime, c4, ts4)

/-- Identity Resolver of v3.0.0 (src/index.js lines 85-146): `/clients/lookup`
with the normalized identifier, then the client's appointments, then the
earliest qualifying appointment.  `Sum.inl` is an early response,
`Sum.inr` the appointment id to continue with. -/
def resolve (req : Req) (env : Env) (now : Int) (ts0 : TokenState)
    (locationId : String) :
    (Resp × List Call × TokenState) ⊕ (String × List Call × TokenState) :=
  let body := lookupBodyOf (req.client_phone.map normalizePhone)
    (req.client_email.map normalizeEmail)
  match getToken ts0 now env.tokenResp with
  | .error e => .inl (.fail (errMsg e), tokCalls ts0 now, ts0)
  | .ok (_, ts1) =>
    let c1 := tokCalls ts0 now ++ [Call.clientLookup TENANT_ID locationId body]
    match env.lookupResp with
    | .error e => .inl (.fail (errMsg e), c1, ts1)
    | .ok ld =>
      let clientId := match ld.getD [] with
        | [] => ""
        | c :: _ => c.clientId
      if clientId = "" then
        .inl (.fail "No client found with that phone number or email", c1, ts1)
      else
        match getToken ts1 now env.tokenResp with
        | .error e => .inl (.fail (errMsg e), c1 ++ tokCalls ts1 now, ts1)
        | .ok (_, ts2) =>
          let c2 := c1 ++ tokCalls ts1 now ++
            [Call.clientAppointments clientId TENANT_ID locationId]
          match env.apptsResp with
          | .error e => .inl (.fail (errMsg e), c2, ts2)
          | .ok none =>
            .inl (.fail "No appointments found for this client", c2, ts2)
          | .ok (some appts) =>
            if appts.isEmpty then
              .inl (.fail "No appointments found for this client", c2, ts2)
            else
              match selectUpcoming now appts with
              | none => .inl
                  (.fail "No upcoming appointments found to mark as running late",
                    c2, ts2)
              | some up => .inr (up.appointmentServiceId, c2, ts2)

/-- The v3.0.0 `POST /mark-late` handler (src/index.js lines 75-205):
identity resolution only when no truthy `appointment_service_id` was
supplied and a phone or email was, the missing-fields check, then the
executor. -/
def markLate (req : Req) (env : Env) (now : Int) (ts0 : TokenState) :
    Resp × List Call × TokenState :=
  let phase1 :=
    if !truthyS req.appointment_service_id &&
        (truthyS req.client_phone || truthyS req.client_email) then
      resolve req env now ts0 (locationOf req)
    else .inr (req.appointment_service_id.getD "", [], ts0)
  match phase1 with
  | .inl out => out
  | .inr (aptId, calls, ts) =>
    if aptId = "" then
      (.fail "Missing appointment_service_id or client_phone/client_email to lookup",
        calls, ts)
    else execLate aptId (locationOf req) env now ts calls

/-- One record of the earlier variant's unfiltered `GET /clients` listing. -/
structure ClientRec2 where
  clientId : String
  primaryPhoneNumber : Option String
  emailAddress : Option String
  deriving DecidableEq

/-- Upstream environment of the earlier variant (its client lookup is the
unfiltered listing). -/
structure Env2 where
  tokenResp : Except ErrVal TokenResp
  clientsResp : Except ErrVal (Option (List ClientRec2))
  apptsResp : Except ErrVal (Option (List Appt))
  detailsResp : Except ErrVal (Option Details)
  writeResp : Except ErrVal Unit

/-- The `find` callback of the earlier variant: match on the last ten
digits of `primaryPhoneNumber` when a normalized phone is truthy, else on
the lower-cased `emailAddress` when a normalized email is truthy. -/
def clientMatches (np ne : Option String) (c : ClientRec2) : Bool :=
  (truthyS np &&
    decide (normalizePhone (c.primaryPhoneNumber.getD "") = np.getD "")) ||
  (truthyS ne &&
    match c.emailAddress with
    | none => false
    | some e => decide (normalizeEmail e = ne.getD ""))

/-- The earlier variant's PUT step, given the details it already holds. -/
def writeLate2 (aptId locationId : String) (env : Env2) (now : Int)
    (ts : TokenState) (calls : List Call) (body : UpdateBody)
    (startTime : Int) : Resp × List Call × TokenState :=
  match getToken ts now env.tokenResp with
  | .error e => (.fail (errMsg e), calls ++ tokCalls ts now, ts)
  | .ok (_, ts4) =>
    let c4 := calls ++ tokCalls ts now ++
      [Call.runningLateWrite TENANT_ID locationId aptId body]
    match env.writeResp with
    | .error e => (.fail (errMsg e), c4, ts4)
    | .ok _ => (.ok aptId startTime, c4, ts4)

/-- Identity resolution of the earlier variant (src/index.js lines 295-352):
list all clients, `find` locally, then the client's appointments; on
success it also keeps the chosen listing record as `appointmentDetails`. -/
def resolve2 (req : Req) (env : Env2) (now : Int) (ts0 : TokenState)
    (locationId : String) :
    (Resp × List Call × TokenState) ⊕
      (String × Option Appt × List Call × TokenState) :=
  let np := req.client_phone.map normalizePhone
  let ne := req.client_email.map normalizeEmail
  match getToken ts0 now env.tokenResp with
  | .error e => .inl (.fail (errMsg e), tokCalls ts0 now, ts0)
  | .ok (_, ts1) =>
    let c1 := tokCalls ts0 now ++ [Call.clientsList TENANT_ID locationId]
    match env.clientsResp with
    | .error e => .inl (.fail (errMsg e), c1, ts1)
    | .ok cd =>
      let clientId := match cd with
        | none => ""
        | some cs =>
          match cs.find? (clientMatches np ne) with
          | none => ""
          | some c => c.clientId
      if clientId = "" then
        .inl (.fail "No client found with that phone number or email", c1, ts1)
      else
        match getToken ts1 now env.tokenResp with
        | .error e => .inl (.fail (errMsg e), c1 ++ tokCalls ts1 now, ts1)
        | .ok (_, ts2) =>
          let c2 := c1 ++ tokCalls ts1 now ++
            [Call.clientAppointments clientId TENANT_ID locationId]
          match env.apptsResp with
          | .error e => .inl (.fail (errMsg e), c2, ts2)
          | .ok none =>
            .inl (.fail "No appointments found for this client", c2, ts2)
          | .ok (some appts) =>
            if appts.isEmpty then
              .inl (.fail "No appointments found for this client", c2, ts2)
            else
              match selectUpcoming now appts with
              | none => .inl
                  (.fail "No upcoming appointments found to mark as running late",
                    c2, ts2)
              | some up => .inr (up.appointmentServiceId, some up, c2, ts2)

/-- The earlier variant's `POST /mark-late` handler (src/index.js lines
284-412): after resolution it keeps the listing record as
`appointmentDetails` and performs the running-late GET only when no such
record is in hand (`if (!appointmentDetails)`). -/
def markLate2 (req : Req) (env : Env2) (now : Int) (ts0 : TokenState) :
    Resp × List Call × TokenState :=
  let phase1 :=
    if !truthyS req.appointment_service_id &&
        (truthyS req.client_phone || truthyS req.client_email) then
      resolve2 req env now ts0 (locationOf req)
    else .inr (req.appointment_service_id.getD "", none, [], ts0)
  match phase1 with
  | .inl out => out
  | .inr (aptId, found, calls, ts) =>
    if aptId = "" then
      (.fail "Missing appointment_service_id or client_phone/client_email to lookup",
        calls, ts)
    else
      match found with
      | some up =>
        writeLate2 aptId (locationOf req) env now ts calls
          (updateBodyOfAppt up) up.startTime
      | none =>
        match getToken ts now env.tokenResp with
        | .error e => (.fail (errMsg e), calls ++ tokCalls ts now, ts)
        | .ok (_, ts3) =>
          let c3 := calls ++ tokCalls ts now ++
            [Call.runningLateRead TENANT_ID (locationOf req) aptId]
          match env.detailsResp with
          | .error e => (.fail (errMsg e), c3, ts3)
          | .ok none => (.fail "Could not get appointment details", c3, ts3)
          | .ok (some d) =>
            writeLate2 aptId (locationOf req) env now ts3 c3
              (updateBodyOf d) d.startTime

/-- The call list carried by a resolution outcome (either side of the sum). -/
def outCalls :
    (Resp × List Call × TokenState) ⊕ (String × List Call × TokenState) →
      List Call
  | .inl (_, c, _) => c
  | .inr (_, c, _) => c

end MarkLate

open MarkLate

/-! ## Helper lemmas -/

/-- `Char.ofNat` evaluates to the given code point below the surrogate range. -/
theorem toNat_ofNat_of_small (n : Nat) (h : n < 55296) :
    (Char.ofNat n).toNat = n := by
  rw [Char.ofNat, dif_pos (Or.inl h)]
  rfl

/-- Unfolding equation for `Char.toLower`. -/
theorem toLower_eq (c : Char) :
    c.toLower = if c.toNat ≥ 65 ∧ c.toNat ≤ 90 then Char.ofNat (c.toNat + 32) else c :=
  rfl

/-- After ASCII lower-casing, no character is an upper-case ASCII letter. -/
theorem toLower_not_upper (c : Char) :
    ¬(65 ≤ c.toLower.toNat ∧ c.toLower.toNat ≤ 90) := by
  rw [toLower_eq]
  by_cases h : c.toNat ≥ 65 ∧ c.toNat ≤ 90
  · rw [if_pos h]
    have hv : (Char.ofNat (c.toNat + 32)).toNat = c.toNat + 32 :=
      toNat_ofNat_of_small _ (by omega)
    rw [hv]
    omega
  · rw [if_neg h]
    omega

/-- ASCII lower-casing of a character is idempotent. -/
theorem toLower_toLower (c : Char) : c.toLower.toLower = c.toLower := by
  have h := toLower_not_upper c
  rw [toLower_eq c.toLower, if_neg]
  omega

/-- `getToken` on a successful token endpoint: the value is the cached or
the fresh token, the state is `refreshedState`. -/
theorem getToken_ok (st : TokenState) (now : Int) (r : TokenResp) :
    getToken st now (.ok r) =
      .ok (if tokenFresh st now then st.token.getD "" else r.access_token,
        refreshedState st now r) := by
  unfold getToken refreshedState
  by_cases h : tokenFresh st now
  · rw [if_pos h, if_pos h, if_pos h]
  · rw [if_neg h, if_neg h, if_neg h]

/-- Every token call is a refresh. -/
theorem mem_tokCalls {st : TokenState} {now : Int} {c : Call}
    (h : c ∈ tokCalls st now) : c = Call.tokenRefresh := by
  unfold tokCalls at h
  by_cases hf : tokenFresh st now
  · rw [if_pos hf] at h
    cases h
  · rw [if_neg hf] at h
    simpa using h

/-- The head of the insertion-sorted list is minimal for the sort key. -/
theorem head_insertionSort_min (l : List Appt) (a : Appt)
    (h : (l.insertionSort apptLE).head? = some a) :
    ∀ b ∈ l, a.startTime ≤ b.startTime := by
  have hs := List.sorted_insertionSort apptLE l
  cases hins : l.insertionSort apptLE with
  | nil => rw [hins] at h; cases h
  | cons x t =>
    rw [hins] at h
    simp only [List.head?_cons, Option.some.injEq] at h
    subst h
    rw [hins] at hs
    intro b hb
    have hb' : b ∈ x :: t := by
      rw [← hins]
      exact (List.mem_insertionSort apptLE).mpr hb
    rcases List.mem_cons.mp hb' with rfl | hbt
    · exact le_refl _
    · exact List.rel_of_sorted_cons hs b hbt

/-- The head of the insertion-sorted list is the first element of the
input attaining the minimal sort key: everything before it in the input is
strictly later. -/
theorem head_insertionSort_first :
    ∀ (l : List Appt) (a : Appt), (l.insertionSort apptLE).head? = some a →
      ∃ l1 l2, l = l1 ++ a :: l2 ∧ ∀ b ∈ l1, a.startTime < b.startTime := by
  intro l
  induction l with
  | nil => intro a h; cases h
  | cons x xs ih =>
    intro a h
    rw [List.insertionSort] at h
    cases hxs : xs.insertionSort apptLE with
    | nil =>
      rw [hxs] at h
      simp only [List.orderedInsert, List.head?_cons, Option.some.injEq] at h
      exact ⟨[], xs, by simp [h], by simp⟩
    | cons c t =>
      rw [hxs] at h
      rw [List.orderedInsert] at h
      by_cases hle : apptLE x c
      · rw [if_pos hle] at h
        simp only [List.head?_cons, Option.some.injEq] at h
        exact ⟨[], xs, by simp [h], by simp⟩
      · rw [if_neg hle] at h
        simp only [List.head?_cons, Option.some.injEq] at h
        have hc : (xs.insertionSort apptLE).head? = some a := by
          rw [hxs, h]
          rfl
        obtain ⟨s1, s2, hsplit, hmin⟩ := ih a hc
        refine ⟨x :: s1, s2, by simp [hsplit], ?_⟩
        intro b hb
        rcases List.mem_cons.mp hb with rfl | hbs
        · have hlt : c.startTime < b.startTime := by
            have := hle
            unfold apptLE at this
            omega
          rw [← h]
          exact hlt
        · exact hmin b hbs

/-- The resolver selects nothing exactly when no appointment survives the
cancelled/future filter. -/
theorem selectUpcoming_eq_none_iff (now : Int) (l : List Appt) :
    selectUpcoming now l = none ↔ l.filter (qualifies now) = [] := by
  unfold selectUpcoming
  rw [List.head?_eq_none_iff]
  constructor
  · intro h
    have hlen := congrArg List.length h
    rw [List.length_insertionSort] at hlen
    exact List.length_eq_zero.mp hlen
  · intro h
    rw [h]
    rfl

/-! ## Claim theorems -/

/-- C3 counterexample: with a stale slot and an upstream-reported lifetime
of 60 seconds, `getToken` makes a refresh and hands out the fresh token
although the current time (100000) is not more than five minutes before
the token's recorded expiry (160000), contradicting the claim's assertion
that a token is never served within the 5-minute margin of its expiry. -/
theorem C3_margin_counterexample :
    getToken ⟨some "t", some 400000⟩ 100000 (.ok ⟨"t2", 60⟩) =
      .ok ("t2", ⟨some "t2", some 160000⟩) ∧
    tokCalls ⟨some "t", some 400000⟩ 100000 = [Call.tokenRefresh] ∧
    ¬((100000 : Int) < 160000 - 300000) :=
  ⟨rfl, rfl, by decide⟩

/-- C3 (amended): if a cached token exists and the current time is more
than 5 minutes (300000 ms) before its recorded expiry, the cached token is
returned unchanged with no refresh call and no state change — so a cached
token is never served within the margin; otherwise exactly one refresh
call is made, the slot is replaced wholesale with the new token and the
expiry `now + expires_in * 1000`, and the new token is returned, which is
outside the 5-minute margin of its expiry whenever the upstream-reported
lifetime exceeds 300 seconds (but not in general). -/
theorem C3_token_cache (st : TokenState) (now : Int) (r : TokenResp) :
    (tokenFresh st now = true →
      getToken st now (.ok r) = .ok (st.token.getD "", st) ∧
      tokCalls st now = [] ∧
      now < st.tokenExpiry.getD 0 - 300000) ∧
    (tokenFresh st now = false →
      getToken st now (.ok r) =
        .ok (r.access_token,
          { token := some r.access_token,
            tokenExpiry := some (now + r.expires_in * 1000) }) ∧
      tokCalls st now = [Call.tokenRefresh] ∧
      (300 < r.expires_in → now < now + r.expires_in * 1000 - 300000)) := by
  constructor
  · intro h
    refine ⟨by simp [getToken, h], by simp [tokCalls, h], ?_⟩
    have h3 := (Bool.and_eq_true _ _).mp h
    simpa using of_decide_eq_true h3.2
  · intro h
    refine ⟨by simp [getToken, h], by simp [tokCalls, h], fun hgt => by omega⟩

/-- Witness for C3 at a fresh cached token. -/
theorem C3_token_cache_witness :
    tokenFresh ⟨some "t", some 1000000⟩ 0 = true ∧
    (getToken ⟨some "t", some 1000000⟩ 0 (.ok ⟨"r", 3600⟩) =
        .ok ((TokenState.mk (some "t") (some 1000000)).token.getD "",
          ⟨some "t", some 1000000⟩) ∧
      tokCalls ⟨some "t", some 1000000⟩ 0 = [] ∧
      (0 : Int) <
        (TokenState.mk (some "t") (some 1000000)).tokenExpiry.getD 0 - 300000) :=
  ⟨by decide, (C3_token_cache ⟨some "t", some 1000000⟩ 0 ⟨"r", 3600⟩).1 (by decide)⟩

/-- C4: for every phone string containing at least 10 digit characters,
the resolver's phone normalization yields exactly the string of its last
10 digits: the result has length 10, is a suffix of the digit subsequence
of the input (so formatting characters are removed and leading
country-code digits are stripped), and consists of digits only. -/
theorem C4_phone_normalization (s : String)
    (h : 10 ≤ (s.data.filter Char.isDigit).length) :
    (normalizePhone s).data.length = 10 ∧
    (normalizePhone s).data <:+ s.data.filter Char.isDigit ∧
    ∀ c ∈ (normalizePhone s).data, c.isDigit = true := by
  refine ⟨?_, ?_, ?_⟩
  · simp only [normalizePhone, List.length_drop]
    omega
  · simpa only [normalizePhone] using
      List.drop_suffix ((s.data.filter Char.isDigit).length - 10)
        (s.data.filter Char.isDigit)
  · intro c hc
    simp only [normalizePhone] at hc
    exact List.of_mem_filter (List.mem_of_mem_drop hc)

/-- Witness for C4 at the concrete phone `"+1 (555) 123-4567"`. -/
theorem C4_phone_normalization_witness :
    10 ≤ ("+1 (555) 123-4567".data.filter Char.isDigit).length ∧
    ((normalizePhone "+1 (555) 123-4567").data.length = 10 ∧
     (normalizePhone "+1 (555) 123-4567").data <:+
       "+1 (555) 123-4567".data.filter Char.isDigit ∧
     ∀ c ∈ (normalizePhone "+1 (555) 123-4567").data, c.isDigit = true) :=
  ⟨by decide, C4_phone_normalization "+1 (555) 123-4567" (by decide)⟩

/-- C5: the resolver's email normalization lower-cases the string (no
upper-case ASCII letter survives) and is idempotent:
`normalize (normalize x) = normalize x` for every string `x`. -/
theorem C5_email_normalization (s : String) :
    normalizeEmail (normalizeEmail s) = normalizeEmail s ∧
    ∀ c ∈ (normalizeEmail s).data, ¬(65 ≤ c.toNat ∧ c.toNat ≤ 90) := by
  constructor
  · simp only [normalizeEmail, List.map_map]
    congr 1
    apply List.map_congr_left
    intro c _
    exact toLower_toLower c
  · intro c hc
    simp only [normalizeEmail, List.mem_map] at hc
    obtain ⟨d, _, rfl⟩ := hc
    exact toLower_not_upper d

/-- C1: among the client's appointments, exactly those with `isCancelled`
false and `startTime >= now` are considered; the selected appointment is a
member of that subset with minimal `startTime`, and is the first such
member in upstream order (ties broken by upstream order); when the subset
is empty the handler answers
`{success:false, error:"No upcoming appointments found to mark as running
late"}` and issues no further upstream call (no running-late read or
write). -/
theorem C1_next_upcoming_selection (now : Int) (l : List Appt) :
    (selectUpcoming now l = none ↔ l.filter (qualifies now) = []) ∧
    (∀ a, selectUpcoming now l = some a →
      a ∈ l.filter (qualifies now) ∧
      (∀ b ∈ l.filter (qualifies now), a.startTime ≤ b.startTime) ∧
      ∃ l1 l2, l.filter (qualifies now) = l1 ++ a :: l2 ∧
        ∀ b ∈ l1, a.startTime < b.startTime) ∧
    (∀ (req : Req) (env : Env) (ts : TokenState) (tr : TokenResp)
        (c0 : ClientRec) (rest : List ClientRec),
      truthyS req.appointment_service_id = false →
      (truthyS req.client_phone || truthyS req.client_email) = true →
      env.tokenResp = .ok tr →
      env.lookupResp = .ok (some (c0 :: rest)) →
      c0.clientId ≠ "" →
      env.apptsResp = .ok (some l) →
      l ≠ [] →
      l.filter (qualifies now) = [] →
      (markLate req env now ts).1 =
        .fail "No upcoming appointments found to mark as running late" ∧
      ∀ c ∈ (markLate req env now ts).2.1, execCall c = false) := by
  refine ⟨selectUpcoming_eq_none_iff now l, ?_, ?_⟩
  · intro a ha
    refine ⟨?_, head_insertionSort_min _ a ha, head_insertionSort_first _ a ha⟩
    exact (List.mem_insertionSort apptLE).mp (List.mem_of_mem_head? ha)
  · intro req env ts tr c0 rest hid hpe htok hlk hcid happ hne hfil
    have hsel : selectUpcoming now l = none :=
      (selectUpcoming_eq_none_iff now l).mpr hfil
    have hguard : (!truthyS req.appointment_service_id &&
        (truthyS req.client_phone || truthyS req.client_email)) = true := by
      rw [hid, hpe]
      rfl
    have hie : l.isEmpty = false := by
      cases l
      · exact absurd rfl hne
      · rfl
    have hml : markLate req env now ts =
        (.fail "No upcoming appointments found to mark as running late",
         (tokCalls ts now ++
            [Call.clientLookup TENANT_ID (locationOf req)
              (lookupBodyOf (req.client_phone.map normalizePhone)
                (req.client_email.map normalizeEmail))]) ++
           (tokCalls (refreshedState ts now tr) now ++
            [Call.clientAppointments c0.clientId TENANT_ID (locationOf req)]),
         refreshedState (refreshedState ts now tr) now tr) := by
      simp only [markLate, resolve, hguard, htok, getToken_ok, hlk, happ, hie,
        hsel, hcid, Option.getD_some, if_neg hcid, Bool.true_and, if_true,
        Bool.false_eq_true, if_false, List.append_assoc]
    rw [hml]
    refine ⟨rfl, ?_⟩
    intro c hc
    rcases List.mem_append.mp hc with hc1 | hc2
    · rcases List.mem_append.mp hc1 with hc3 | hc4
      · rw [mem_tokCalls hc3]
        rfl
      · rw [List.mem_singleton.mp hc4]
        rfl
    · rcases List.mem_append.mp hc2 with hc5 | hc6
      · rw [mem_tokCalls hc5]
        rfl
      · rw [List.mem_singleton.mp hc6]
        rfl

/-- Witness for C1: a single cancelled appointment leaves the subset
empty, so the handler reports the no-upcoming error and issues no
executor call. -/
theorem C1_next_upcoming_selection_witness :
    (markLate ⟨none, some "5551234567", none, none, none⟩
        ⟨.ok ⟨"tok", 3600⟩, .ok (some [⟨"C1", "Bob", "Lee"⟩]),
         .ok (some [⟨"A1", 500, true, none, none, none, none⟩]),
         .ok none, .ok ()⟩ 0 ⟨none, none⟩).1 =
      .fail "No upcoming appointments found to mark as running late" ∧
    ∀ c ∈ (markLate ⟨none, some "5551234567", none, none, none⟩
        ⟨.ok ⟨"tok", 3600⟩, .ok (some [⟨"C1", "Bob", "Lee"⟩]),
         .ok (some [⟨"A1", 500, true, none, none, none, none⟩]),
         .ok none, .ok ()⟩ 0 ⟨none, none⟩).2.1, execCall c = false :=
  (C1_next_upcoming_selection 0 [⟨"A1", 500, true, none, none, none, none⟩]).2.2
    ⟨none, some "5551234567", none, none, none⟩
    ⟨.ok ⟨"tok", 3600⟩, .ok (some [⟨"C1", "Bob", "Lee"⟩]),
     .ok (some [⟨"A1", 500, true, none, none, none, none⟩]), .ok none, .ok ()⟩
    ⟨none, none⟩ ⟨"tok", 3600⟩ ⟨"C1", "Bob", "Lee"⟩ []
    (by decide) (by decide) rfl rfl (by decide) rfl (by decide) (by decide)

/-- C7: a request with no truthy `appointment_service_id`, `client_phone`
or `client_email` is answered immediately with the missing-fields error
and zero upstream calls, leaving the token slot untouched. -/
theorem C7_missing_fields (req : Req) (env : Env) (now : Int) (ts : TokenState)
    (h1 : truthyS req.appointment_service_id = false)
    (h2 : truthyS req.client_phone = false)
    (h3 : truthyS req.client_email = false) :
    markLate req env now ts =
      (.fail "Missing appointment_service_id or client_phone/client_email to lookup",
       [], ts) := by
  have hid : req.appointment_service_id.getD "" = "" := by
    cases hh : req.appointment_service_id with
    | none => rfl
    | some s =>
      rw [hh] at h1
      simp only [truthyS, decide_eq_false_iff_not, not_not] at h1
      simpa using h1
  simp [markLate, h1, h2, h3, hid]

/-- Witness for C7 at the empty request `{}`. -/
theorem C7_missing_fields_witness :
    markLate ⟨none, none, none, none, none⟩
        ⟨.ok ⟨"tok", 3600⟩, .ok none, .ok none, .ok none, .ok ()⟩ 0 ⟨none, none⟩ =
      (.fail "Missing appointment_service_id or client_phone/client_email to lookup",
       [], ⟨none, none⟩) :=
  C7_missing_fields ⟨none, none, none, none, none⟩
    ⟨.ok ⟨"tok", 3600⟩, .ok none, .ok none, .ok none, .ok ()⟩ 0 ⟨none, none⟩
    (by decide) (by decide) (by decide)

/-- C8: with a truthy `appointment_service_id`, identity resolution is
skipped (no client-lookup, client-listing or client-appointments call):
the handler reads details for that identifier, submits the update, and on
success answers `success:true` with the same identifier. -/
theorem C8_direct_id (req : Req) (env : Env) (now : Int) (ts : TokenState)
    (tr : TokenResp) (d : Details)
    (hid : truthyS req.appointment_service_id = true)
    (htok : env.tokenResp = .ok tr)
    (hdet : env.detailsResp = .ok (some d))
    (hw : env.writeResp = .ok ()) :
    markLate req env now ts =
      (.ok (req.appointment_service_id.getD "") d.startTime,
       tokCalls ts now ++
         ([Call.runningLateRead TENANT_ID (locationOf req)
             (req.appointment_service_id.getD "")] ++
          (tokCalls (refreshedState ts now tr) now ++
           [Call.runningLateWrite TENANT_ID (locationOf req)
             (req.appointment_service_id.getD "") (updateBodyOf d)])),
       refreshedState (refreshedState ts now tr) now tr) ∧
    ∀ c ∈ (markLate req env now ts).2.1, resolverCall c = false := by
  have hne : ¬(req.appointment_service_id.getD "" = "") := by
    cases hh : req.appointment_service_id with
    | none => rw [hh] at hid; simp [truthyS] at hid
    | some s =>
      rw [hh] at hid
      simp only [truthyS, decide_eq_true_eq] at hid
      simpa using hid
  have hguard : (!truthyS req.appointment_service_id &&
      (truthyS req.client_phone || truthyS req.client_email)) = false := by
    rw [hid]
    rfl
  have hml : markLate req env now ts =
      (.ok (req.appointment_service_id.getD "") d.startTime,
       tokCalls ts now ++
         ([Call.runningLateRead TENANT_ID (locationOf req)
             (req.appointment_service_id.getD "")] ++
          (tokCalls (refreshedState ts now tr) now ++
           [Call.runningLateWrite TENANT_ID (locationOf req)
             (req.appointment_service_id.getD "") (updateBodyOf d)])),
       refreshedState (refreshedState ts now tr) now tr) := by
    simp only [markLate, hguard, Bool.false_eq_true, if_false, if_neg hne,
      execLate, htok, getToken_ok, hdet, hw, List.nil_append,
      List.append_assoc]
  refine ⟨hml, ?_⟩
  rw [hml]
  intro c hc
  rcases List.mem_append.mp hc with hc1 | hc2
  · rw [mem_tokCalls hc1]
    rfl
  · rcases List.mem_append.mp hc2 with hc3 | hc4
    · rw [List.mem_singleton.mp hc3]
      rfl
    · rcases List.mem_append.mp hc4 with hc5 | hc6
      · rw [mem_tokCalls hc5]
        rfl
      · rw [List.mem_singleton.mp hc6]
        rfl

/-- Witness for C8 at the direct identifier `"APT-42"`. -/
theorem C8_direct_id_witness :
    markLate ⟨some "APT-42", none, none, none, none⟩
        ⟨.ok ⟨"tok", 3600⟩, .ok none, .ok none,
         .ok (some ⟨"SVC", "CL", "EMP", 5, 1234⟩), .ok ()⟩ 0 ⟨none, none⟩ =
      (.ok ((some "APT-42").getD "")
          (Details.startTime ⟨"SVC", "CL", "EMP", 5, 1234⟩),
       tokCalls ⟨none, none⟩ 0 ++
         ([Call.runningLateRead TENANT_ID
             (locationOf ⟨some "APT-42", none, none, none, none⟩)
             ((some "APT-42").getD "")] ++
          (tokCalls (refreshedState ⟨none, none⟩ 0 ⟨"tok", 3600⟩) 0 ++
           [Call.runningLateWrite TENANT_ID
             (locationOf ⟨some "APT-42", none, none, none, none⟩)
             ((some "APT-42").getD "")
             (updateBodyOf ⟨"SVC", "CL", "EMP", 5, 1234⟩)])),
       refreshedState (refreshedState ⟨none, none⟩ 0 ⟨"tok", 3600⟩) 0
         ⟨"tok", 3600⟩) ∧
    ∀ c ∈ (markLate ⟨some "APT-42", none, none, none, none⟩
        ⟨.ok ⟨"tok", 3600⟩, .ok none, .ok none,
         .ok (some ⟨"SVC", "CL", "EMP", 5, 1234⟩), .ok ()⟩ 0
        ⟨none, none⟩).2.1, resolverCall c = false :=
  C8_direct_id ⟨some "APT-42", none, none, none, none⟩
    ⟨.ok ⟨"tok", 3600⟩, .ok none, .ok none,
     .ok (some ⟨"SVC", "CL", "EMP", 5, 1234⟩), .ok ()⟩ 0 ⟨none, none⟩
    ⟨"tok", 3600⟩ ⟨"SVC", "CL", "EMP", 5, 1234⟩ (by decide) rfl rfl rfl

/-- The executor only appends to the request's call list. -/
theorem execLate_calls (aptId loc : String) (env : Env) (now : Int)
    (ts : TokenState) (calls : List Call) :
    ∃ t, (execLate aptId loc env now ts calls).2.1 = calls ++ t := by
  unfold execLate
  cases hgt : getToken ts now env.tokenResp with
  | error e => exact ⟨tokCalls ts now, rfl⟩
  | ok v =>
    obtain ⟨tok, ts3⟩ := v
    cases hd : env.detailsResp with
    | error e =>
      refine ⟨tokCalls ts now ++
        [Call.runningLateRead TENANT_ID loc aptId], ?_⟩
      simp
    | ok od =>
      cases od with
      | none =>
        refine ⟨tokCalls ts now ++
          [Call.runningLateRead TENANT_ID loc aptId], ?_⟩
        simp
      | some details =>
        cases hgt2 : getToken ts3 now env.tokenResp with
        | error e =>
          refine ⟨tokCalls ts now ++
            [Call.runningLateRead TENANT_ID loc aptId] ++ tokCalls ts3 now, ?_⟩
          simp [hgt2]
        | ok v2 =>
          obtain ⟨tok2, ts4⟩ := v2
          cases hw : env.writeResp with
          | error e =>
            refine ⟨tokCalls ts now ++
              [Call.runningLateRead TENANT_ID loc aptId] ++
              (tokCalls ts3 now ++
               [Call.runningLateWrite TENANT_ID loc aptId
                 (updateBodyOf details)]), ?_⟩
            simp [hgt2]
          | ok u =>
            refine ⟨tokCalls ts now ++
              [Call.runningLateRead TENANT_ID loc aptId] ++
              (tokCalls ts3 now ++
               [Call.runningLateWrite TENANT_ID loc aptId
                 (updateBodyOf details)]), ?_⟩
            simp [hgt2]

/-- When the token endpoint answers, every outcome of the resolver carries
the `/clients/lookup` call with the normalized filter body. -/
theorem resolve_lookup_mem (req : Req) (env : Env) (now : Int)
    (ts : TokenState) (loc : String) (tr : TokenResp)
    (htok : env.tokenResp = .ok tr) :
    Call.clientLookup TENANT_ID loc
        (lookupBodyOf (req.client_phone.map normalizePhone)
          (req.client_email.map normalizeEmail))
      ∈ outCalls (resolve req env now ts loc) := by
  simp only [resolve, htok, getToken_ok]
  cases hl : env.lookupResp with
  | error e => simp [outCalls]
  | ok ld =>
    cases ld with
    | none => simp [outCalls]
    | some cs =>
      cases cs with
      | nil => simp [outCalls]
      | cons c0 rest =>
        simp only [Option.getD_some]
        by_cases hc : c0.clientId = ""
        · simp [hc, outCalls]
        · simp only [if_neg hc]
          cases ha : env.apptsResp with
          | error e => simp [outCalls]
          | ok ad =>
            cases ad with
            | none => simp [outCalls]
            | some appts =>
              by_cases hie : appts.isEmpty
              · simp [hie, outCalls]
              · simp only [hie, Bool.false_eq_true, if_false]
                cases hs : selectUpcoming now appts with
                | none => simp [outCalls]
                | some up => simp [outCalls]

/-- When the token endpoint answers and the resolution path is taken, the
handler's trace contains the `/clients/lookup` call with the normalized
filter body. -/
theorem markLate_lookup_mem (req : Req) (env : Env) (now : Int)
    (ts : TokenState) (tr : TokenResp)
    (hid : truthyS req.appointment_service_id = false)
    (hpe : (truthyS req.client_phone || truthyS req.client_email) = true)
    (htok : env.tokenResp = .ok tr) :
    Call.clientLookup TENANT_ID (locationOf req)
        (lookupBodyOf (req.client_phone.map normalizePhone)
          (req.client_email.map normalizeEmail))
      ∈ (markLate req env now ts).2.1 := by
  have hguard : (!truthyS req.appointment_service_id &&
      (truthyS req.client_phone || truthyS req.client_email)) = true := by
    rw [hid, hpe]
    rfl
  have hmem := resolve_lookup_mem req env now ts (locationOf req) tr htok
  simp only [markLate, hguard, if_true]
  cases hres : resolve req env now ts (locationOf req) with
  | inl out =>
    obtain ⟨r, c, t2⟩ := out
    rw [hres] at hmem
    simpa [outCalls] using hmem
  | inr cont =>
    obtain ⟨a, c, t2⟩ := cont
    rw [hres] at hmem
    simp only [outCalls] at hmem
    by_cases haz : a = ""
    · simp [haz, hmem]
    · simp only [if_neg haz]
      obtain ⟨t, ht⟩ := execLate_calls a (locationOf req) env now t2 c
      rw [ht]
      exact List.mem_append.mpr (Or.inl hmem)

/-- Lower-casing a non-empty string is non-empty. -/
theorem normalizeEmail_ne_empty (e : String) (he : e ≠ "") :
    normalizeEmail e ≠ "" := by
  intro hc
  apply he
  have hd := congrArg String.data hc
  simp only [normalizeEmail] at hd
  have hnil : e.data = [] := List.map_eq_nil_iff.mp hd
  cases e with
  | mk d =>
    have hd2 : d = [] := hnil
    subst hd2
    rfl

/-- C6 counterexample: a request supplying both a phone (`"abc"`, which
contains no digit) and an email is resolved with the email filter, not the
phone filter, refuting the claim that the lookup uses the phone filter only
whenever both identifiers are supplied. -/
theorem C6_counterexample :
    (markLate ⟨none, some "abc", some "X@Y.com", none, none⟩
        ⟨.ok ⟨"tok", 3600⟩, .ok none, .ok none, .ok none, .ok ()⟩
        0 ⟨none, none⟩).2.1 =
      [Call.tokenRefresh,
       Call.clientLookup "200507" "201664" (LookupBody.email "x@y.com")] := by
  decide

/-- C6 (amended): when no direct appointment identifier is supplied and a
phone or email is, the handler issues exactly one client lookup whose
filter body is the normalized phone whenever the supplied phone contains
at least one digit (the email being ignored even when supplied); when the
supplied phone is absent, empty, or normalizes to the empty string (no
digit characters), the filter falls back to the non-empty supplied email. -/
theorem C6_lookup_prefers_phone (req : Req) (env : Env) (now : Int)
    (ts : TokenState) (tr : TokenResp)
    (hid : truthyS req.appointment_service_id = false)
    (hpe : (truthyS req.client_phone || truthyS req.client_email) = true)
    (htok : env.tokenResp = .ok tr) :
    Call.clientLookup TENANT_ID (locationOf req)
        (lookupBodyOf (req.client_phone.map normalizePhone)
          (req.client_email.map normalizeEmail))
      ∈ (markLate req env now ts).2.1 ∧
    (∀ p, req.client_phone = some p → normalizePhone p ≠ "" →
      lookupBodyOf (req.client_phone.map normalizePhone)
        (req.client_email.map normalizeEmail) = .phone (normalizePhone p)) ∧
    (truthyS (req.client_phone.map normalizePhone) = false →
      ∀ e, req.client_email = some e → e ≠ "" →
      lookupBodyOf (req.client_phone.map normalizePhone)
        (req.client_email.map normalizeEmail) = .email (normalizeEmail e)) := by
  refine ⟨markLate_lookup_mem req env now ts tr hid hpe htok, ?_, ?_⟩
  · intro p hp hnp
    rw [hp]
    simp only [Option.map_some, lookupBodyOf, truthyS]
    rw [if_pos (by simpa using hnp)]
    rfl
  · intro hpf e he hne
    rw [he]
    simp only [Option.map_some, lookupBodyOf]
    rw [if_neg (by simp [hpf]), if_pos]
    · rfl
    · simpa [truthyS] using normalizeEmail_ne_empty e hne

/-- Witness for C6 at a formatted phone with digits plus an email: the
issued lookup carries the phone filter. -/
theorem C6_lookup_prefers_phone_witness :
    Call.clientLookup TENANT_ID
        (locationOf ⟨none, some "+1 (555) 123-4567", some "A@B.c", none, none⟩)
        (lookupBodyOf
          ((some "+1 (555) 123-4567").map normalizePhone)
          ((some "A@B.c").map normalizeEmail))
      ∈ (markLate ⟨none, some "+1 (555) 123-4567", some "A@B.c", none, none⟩
          ⟨.ok ⟨"tok", 3600⟩, .ok none, .ok none, .ok none, .ok ()⟩
          0 ⟨none, none⟩).2.1 ∧
    (∀ p, (some "+1 (555) 123-4567" : Option String) = some p →
      normalizePhone p ≠ "" →
      lookupBodyOf ((some "+1 (555) 123-4567").map normalizePhone)
        ((some "A@B.c").map normalizeEmail) = .phone (normalizePhone p)) ∧
    (truthyS ((some "+1 (555) 123-4567").map normalizePhone) = false →
      ∀ e, (some "A@B.c" : Option String) = some e → e ≠ "" →
      lookupBodyOf ((some "+1 (555) 123-4567").map normalizePhone)
        ((some "A@B.c").map normalizeEmail) = .email (normalizeEmail e)) :=
  C6_lookup_prefers_phone ⟨none, some "+1 (555) 123-4567", some "A@B.c", none, none⟩
    ⟨.ok ⟨"tok", 3600⟩, .ok none, .ok none, .ok none, .ok ()⟩
    0 ⟨none, none⟩ ⟨"tok", 3600⟩ (by decide) (by decide) rfl

/-- C10: two requests differing only in `estimated_minutes` produce the
same response, the same upstream calls with the same payloads, and the
same token state — the field is accepted but has no observable effect. -/
theorem C10_estimated_minutes_ignored (req : Req) (env : Env) (now : Int)
    (ts : TokenState) (m1 m2 : Option Int) :
    markLate { req with estimated_minutes := m1 } env now ts =
      markLate { req with estimated_minutes := m2 } env now ts := by
  cases req
  rfl

/-- A truthy optional string is a non-empty string. -/
theorem getD_ne_empty_of_truthy (o : Option String) (h : truthyS o = true) :
    o.getD "" ≠ "" := by
  cases o with
  | none => simp [truthyS] at h
  | some s => simpa [truthyS] using h

/-- C9: every upstream throw is caught at the handler boundary and turned
into `{success:false, error:<message>}` where the message is the upstream
body's `error.message` when present and the generic fallback otherwise:
this holds for the token refresh, the client lookup, the appointments
listing (via `markLate`), and the details read and running-late write (via
`execLate`, which handles every request that reaches the executor — a
request with a truthy direct identifier enters it directly). -/
theorem C9_error_shaping :
    (∀ m, errMsg (some m) = m) ∧
    errMsg none = "Failed to mark appointment as running late" ∧
    (∀ (req : Req) (env : Env) (now : Int) (ts : TokenState),
      truthyS req.appointment_service_id = true →
      markLate req env now ts =
        execLate (req.appointment_service_id.getD "") (locationOf req)
          env now ts []) ∧
    (∀ (aptId loc : String) (env : Env) (now : Int) (ts : TokenState)
        (calls : List Call) (e : ErrVal),
      (tokenFresh ts now = false → env.tokenResp = .error e →
        (execLate aptId loc env now ts calls).1 = .fail (errMsg e)) ∧
      (∀ tr, env.tokenResp = .ok tr → env.detailsResp = .error e →
        (execLate aptId loc env now ts calls).1 = .fail (errMsg e)) ∧
      (∀ tr d, env.tokenResp = .ok tr → env.detailsResp = .ok (some d) →
        env.writeResp = .error e →
        (execLate aptId loc env now ts calls).1 = .fail (errMsg e))) ∧
    (∀ (req : Req) (env : Env) (now : Int) (ts : TokenState) (tr : TokenResp)
        (e : ErrVal),
      truthyS req.appointment_service_id = false →
      (truthyS req.client_phone || truthyS req.client_email) = true →
      (tokenFresh ts now = false → env.tokenResp = .error e →
        (markLate req env now ts).1 = .fail (errMsg e)) ∧
      (env.tokenResp = .ok tr → env.lookupResp = .error e →
        (markLate req env now ts).1 = .fail (errMsg e)) ∧
      (∀ c0 rest, env.tokenResp = .ok tr →
        env.lookupResp = .ok (some (c0 :: rest)) → c0.clientId ≠ "" →
        env.apptsResp = .error e →
        (markLate req env now ts).1 = .fail (errMsg e))) := by
  refine ⟨fun m => rfl, rfl, ?_, ?_, ?_⟩
  · intro req env now ts hid
    have hne := getD_ne_empty_of_truthy _ hid
    have hguard : (!truthyS req.appointment_service_id &&
        (truthyS req.client_phone || truthyS req.client_email)) = false := by
      rw [hid]
      rfl
    simp only [markLate, hguard, Bool.false_eq_true, if_false, if_neg hne]
  · intro aptId loc env now ts calls e
    refine ⟨?_, ?_, ?_⟩
    · intro hf htk
      have hgt : getToken ts now env.tokenResp = .error e := by
        simp [getToken, hf, htk]
      simp [execLate, hgt]
    · intro tr htk hdet
      simp [execLate, htk, getToken_ok, hdet]
    · intro tr d htk hdet hw
      simp [execLate, htk, getToken_ok, hdet, hw]
  · intro req env now ts tr e hid hpe
    have hguard : (!truthyS req.appointment_service_id &&
        (truthyS req.client_phone || truthyS req.client_email)) = true := by
      rw [hid, hpe]
      rfl
    refine ⟨?_, ?_, ?_⟩
    · intro hf htk
      have hgt : getToken ts now env.tokenResp = .error e := by
        simp [getToken, hf, htk]
      simp [markLate, hguard, resolve, hgt]
    · intro htk hlk
      simp [markLate, hguard, resolve, htk, getToken_ok, hlk]
    · intro c0 rest htk hlk hcid ha
      simp [markLate, hguard, resolve, htk, getToken_ok, hlk, hcid, ha]

/-- Witness for C9: the spec's Scenario E — the write returns the error
body `{error:{message:"Concurrency conflict"}}` and the caller receives
`{success:false, error:"Concurrency conflict"}`. -/
theorem C9_error_shaping_witness :
    (execLate "APT-1" "201664"
        ⟨.ok ⟨"tok", 3600⟩, .ok none, .ok none,
         .ok (some ⟨"SVC", "CL", "EMP", 5, 1234⟩),
         .error (some "Concurrency conflict")⟩ 0 ⟨none, none⟩ []).1 =
      .fail "Concurrency conflict" :=
  (C9_error_shaping.2.2.2.1 "APT-1" "201664"
      ⟨.ok ⟨"tok", 3600⟩, .ok none, .ok none,
       .ok (some ⟨"SVC", "CL", "EMP", 5, 1234⟩),
       .error (some "Concurrency conflict")⟩ 0 ⟨none, none⟩ []
      (some "Concurrency conflict")).2.2
    ⟨"tok", 3600⟩ ⟨"SVC", "CL", "EMP", 5, 1234⟩ rfl rfl rfl

/-- C2 (violated by the earlier variant): a phone-resolved request in the
earlier variant issues NO running-late read at all and submits the
`ConcurrencyCheckDigits` value (7) taken from the appointments listing,
even though the running-late read endpoint would have returned fresh
digits (99) — the write payload reuses the earlier read, contradicting
the required freshness of the concurrency token. -/
theorem C2_reused_digits_on_resolution_path :
    markLate2 ⟨none, some "5551234567", none, none, none⟩
        ⟨.ok ⟨"tok", 3600⟩,
         .ok (some [⟨"C1", some "5551234567", none⟩]),
         .ok (some [⟨"APT-9", 2000, false, some "SVC", some "CL",
           some "EMP", some 7⟩]),
         .ok (some ⟨"SVC", "CL", "EMP", 99, 2000⟩),
         .ok ()⟩ 1000 ⟨none, none⟩ =
      (.ok "APT-9" 2000,
       [Call.tokenRefresh,
        Call.clientsList "200507" "201664",
        Call.clientAppointments "C1" "200507" "201664",
        Call.runningLateWrite "200507" "201664" "APT-9"
          ⟨some "SVC", some "CL", some "EMP", some 7, some 2000, true⟩],
       ⟨some "tok", some 3601000⟩) ∧
    ∀ c ∈ (markLate2 ⟨none, some "5551234567", none, none, none⟩
        ⟨.ok ⟨"tok", 3600⟩,
         .ok (some [⟨"C1", some "5551234567", none⟩]),
         .ok (some [⟨"APT-9", 2000, false, some "SVC", some "CL",
           some "EMP", some 7⟩]),
         .ok (some ⟨"SVC", "CL", "EMP", 99, 2000⟩),
         .ok ()⟩ 1000 ⟨none, none⟩).2.1, isReadCall c = false := by
  refine ⟨?_, ?_⟩
  · decide
  · decide
